import Mathlib

set_option maxRecDepth 10000

/-!
Verification of the SSRF-safe fetch layer of `bodigi-mcp-server`.

Shallow embedding of `src/utils/ssrf-safe-fetch.ts` (URL safety validator and
safe fetcher) and `src/config/index.ts` (the configuration defaults it reads),
together with proofs of the specification claims about them.

JavaScript strings are modelled as Lean `String`/`List Char`; byte streams as
`List Nat` (each entry < 256); the built-in platform pieces the source relies
on (`new URL(...)`, `fetch`, `TextDecoder`, `crypto.createHash('sha256')`,
regular-expression matching) are modelled by executable Lean functions that
implement the behaviour of those built-ins on the inputs this code feeds them.
-/

namespace Bodigi

/-! ## Small character / string helpers (modelling JS built-ins) -/

/-- ASCII lower-casing of one character, as `String.prototype.toLowerCase`
acts on the ASCII range (hostnames and the patterns compared against them are
ASCII). -/
def jsToLowerChar (c : Char) : Char :=
  if 'A' ≤ c ∧ c ≤ 'Z' then Char.ofNat (c.toNat + 32) else c

/-- `String.prototype.toLowerCase` on a character list. -/
def jsToLower (l : List Char) : List Char :=
  l.map jsToLowerChar

/-- ASCII decimal digit test (regex `\d`). -/
def isAsciiDigit (c : Char) : Bool :=
  '0' ≤ c ∧ c ≤ '9'

/-- Character class `[a-f0-9:]` with the `i` flag, i.e. `[a-fA-F0-9:]`. -/
def isIpv6Char (c : Char) : Bool :=
  ('a' ≤ c ∧ c ≤ 'f') ∨ ('A' ≤ c ∧ c ≤ 'F') ∨ isAsciiDigit c ∨ c = ':'

/-- `List Char` suffix test, modelling `String.prototype.endsWith`. -/
def endsWithL (s suffix : List Char) : Bool :=
  suffix.isSuffixOf s

/-- `List Char` prefix test, modelling `String.prototype.startsWith`. -/
def startsWithL (s pre : List Char) : Bool :=
  pre.isPrefixOf s

/-! ## Configuration (`src/config/index.ts`)

Only the fields the fetch layer reads are modelled. -/

structure Config where
  ALLOWED_DOMAINS : List String
  FETCH_TIMEOUT_MS : Nat
  MAX_FETCH_BYTES : Nat
deriving Repr, DecidableEq

/-- The zod schema defaults: `ALLOWED_DOMAINS` defaults to
`'wikipedia.org,github.com,.edu,.gov'` (split on commas), `FETCH_TIMEOUT_MS`
to `'10000'`, `MAX_FETCH_BYTES` to `'1048576'`. -/
def defaultConfig : Config :=
  { ALLOWED_DOMAINS := ["wikipedia.org", "github.com", ".edu", ".gov"]
    FETCH_TIMEOUT_MS := 10000
    MAX_FETCH_BYTES := 1048576 }

/-! ## URL parsing (modelling the WHATWG `new URL(...)` built-in)

The validator only reads `urlObj.protocol` (lower-cased scheme followed by
`:`) and `urlObj.hostname` (lower-cased host; for an IPv6 literal the WHATWG
getter includes the square brackets). We model the parser for the absolute
`scheme://host[:port][/path]` shapes this repository feeds it; anything not of
that shape is a parse failure (`new URL` throws, the validator catches). -/

structure ParsedUrl where
  /-- e.g. `"http:"`, `"https:"`, `"ftp:"` — always lower-case, with the colon. -/
  protocol : String
  /-- lower-cased hostname, brackets included for an IPv6 literal. -/
  hostname : String
deriving Repr, DecidableEq

/-- Scheme characters: ASCII alpha, digits, `+`, `-`, `.` (first char alpha). -/
def isSchemeChar (c : Char) : Bool :=
  ('a' ≤ c ∧ c ≤ 'z') ∨ ('A' ≤ c ∧ c ≤ 'Z') ∨ isAsciiDigit c ∨ c = '+' ∨ c = '-' ∨ c = '.'

/-- Split the host part from everything after it: the host ends at the first
`/`, `?`, `#` or `:` (port separator); a bracketed IPv6 host runs to the
closing `]`. Returns the host characters. -/
def takeHost : List Char → List Char
  | [] => []
  | '[' :: rest =>
    let inside := rest.takeWhile (fun c => c ≠ ']')
    '[' :: inside ++ (if rest.drop inside.length = [] then [] else [']'])
  | l => l.takeWhile (fun c => c ≠ '/' ∧ c ≠ ':' ∧ c ≠ '?' ∧ c ≠ '#')

/-- Model of `new URL(url)` for absolute `scheme://host...` URLs: `none` means
the constructor throws. -/
def parseUrl (url : String) : Option ParsedUrl :=
  let l := url.data
  let scheme := l.takeWhile isSchemeChar
  let rest := l.drop scheme.length
  if scheme = [] then none
  else match rest with
    | ':' :: '/' :: '/' :: hostAndMore =>
      let host := takeHost hostAndMore
      if host = [] then none
      else some { protocol := String.mk (jsToLower scheme ++ [':'])
                  hostname := String.mk (jsToLower host) }
    | _ => none

/-! ## The validator's blocklists (`ssrf-safe-fetch.ts` lines 13–34) -/

/-- Split on `.`, keeping empty parts (`"a..b"` gives `["a", "", "b"]`). -/
def splitOnDot : List Char → List (List Char)
  | [] => [[]]
  | '.' :: rest => [] :: splitOnDot rest
  | c :: rest =>
    match splitOnDot rest with
    | p :: ps => (c :: p) :: ps
    | [] => [[c]]

/-- Regex `^(\d{1,3}\.){3}\d{1,3}$`: four runs of one-to-three ASCII digits
separated by dots. -/
def isIpv4Literal (h : List Char) : Bool :=
  let parts := splitOnDot h
  parts.length = 4 ∧
    parts.all (fun p => p ≠ [] ∧ p.length ≤ 3 ∧ p.all isAsciiDigit)

/-- Regex `^\[?([a-f0-9:]+)\]?$/i`: an optional `[`, one or more characters of
`[a-fA-F0-9:]`, an optional `]`. -/
def isIpv6ish (h : List Char) : Bool :=
  let h1 := match h with
    | '[' :: rest => rest
    | l => l
  let h2 := if h1.getLast? = some ']' then h1.dropLast else h1
  h2 ≠ [] ∧ h2.all isIpv6Char

/-- Regex `^172\.(1[6-9]|2[0-9]|3[0-1])\.`: literal `172.`, then a two-digit
number from 16–31, then a dot. -/
def blocked172 (h : List Char) : Bool :=
  match h with
  | '1' :: '7' :: '2' :: '.' :: d1 :: d2 :: '.' :: _ =>
    (d1 = '1' ∧ '6' ≤ d2 ∧ d2 ≤ '9') ∨
    (d1 = '2' ∧ '0' ≤ d2 ∧ d2 ≤ '9') ∨
    (d1 = '3' ∧ (d2 = '0' ∨ d2 = '1'))
  | _ => false

/-- `BLOCKED_PATTERNS`: the disjunction of the thirteen anchored regexes the
source tests a candidate IP-looking hostname against. Each regex is a literal
prefix test except the 172.16–31 alternation and the fully-anchored `^::1$`. -/
def blockedPatternsMatch (h : List Char) : Bool :=
  startsWithL h "127.".data ∨
  startsWithL h "10.".data ∨
  blocked172 h ∨
  startsWithL h "192.168.".data ∨
  startsWithL h "169.254.".data ∨
  startsWithL h "0.".data ∨
  startsWithL h "224.".data ∨
  startsWithL h "240.".data ∨
  startsWithL h "255.255.255.255".data ∨
  h = "::1".data ∨
  startsWithL h "fe80:".data ∨
  startsWithL h "fc00:".data ∨
  startsWithL h "fd00:".data

/-- `BLOCKED_HOSTNAMES`: the exact-match blocklist. -/
def BLOCKED_HOSTNAMES : List String :=
  ["localhost", "metadata.google.internal", "169.254.169.254", "100.100.100.200"]

/-! ## The validator (`validateUrl`, lines 53–104) -/

/-- Result of `validateUrl`: `{ valid: boolean; reason?: string }`. -/
structure ValidationOutcome where
  valid : Bool
  reason : Option String
deriving Repr, DecidableEq

/-- One step of `allowedDomains.some(...)`: the per-pattern match. A pattern
starting with `.` is a literal suffix match; otherwise exact equality or
`hostname.endsWith('.' + domain)`. -/
def domainMatches (domain hostname : List Char) : Bool :=
  if startsWithL domain ".".data then
    endsWithL hostname domain
  else
    hostname = domain ∨ endsWithL hostname ('.' :: domain)

/-- `validateUrl` applied to an already-parsed URL (everything after the
`new URL(url)` call). -/
def validateUrlParsed (u : ParsedUrl) (config : Config) : ValidationOutcome :=
  if ¬ (u.protocol = "http:" ∨ u.protocol = "https:") then
    { valid := false, reason := some "Only HTTP and HTTPS protocols are allowed" }
  else
    let hostname := String.mk (jsToLower u.hostname.data)
    if hostname ∈ BLOCKED_HOSTNAMES then
      { valid := false, reason := some ("Hostname \"" ++ hostname ++ "\" is blocked") }
    else if (isIpv4Literal hostname.data ∨ isIpv6ish hostname.data) ∧
            blockedPatternsMatch hostname.data then
      { valid := false
        reason := some ("IP address \"" ++ hostname ++ "\" is in a blocked range") }
    else if ¬ config.ALLOWED_DOMAINS.any (fun d => domainMatches d.data hostname.data) then
      { valid := false
        reason := some ("Domain \"" ++ hostname ++ "\" is not in the allowed list. Allowed: "
          ++ String.intercalate ", " config.ALLOWED_DOMAINS) }
    else
      { valid := true, reason := none }

/-- `validateUrl(url)`: parse, then validate; a parse failure is caught and
reported as `Invalid URL format`. -/
def validateUrl (url : String) (config : Config) : ValidationOutcome :=
  match parseUrl url with
  | none => { valid := false, reason := some "Invalid URL format" }
  | some u => validateUrlParsed u config

/-! ## Content sanitization (`ssrf-safe-fetch.ts` lines 189–206)

Each of the source's regex replacements is modelled by an executable function
implementing that particular regex's behaviour. -/

/-- Case-insensitive ASCII character comparison (regex `i` flag). -/
def ciCharEq (a b : Char) : Bool :=
  jsToLowerChar a = jsToLowerChar b

/-- Case-insensitive prefix test. -/
def ciIsPrefix : List Char → List Char → Bool
  | [], _ => true
  | _ :: _, [] => false
  | p :: ps, c :: cs => ciCharEq p c ∧ ciIsPrefix ps cs

/-- First case-insensitive occurrence of `pat` in the input, as
`(before, matchedText, after)`; `none` when `pat` does not occur. -/
def splitOnceCI (pat : List Char) : List Char → Option (List Char × List Char × List Char)
  | [] => if pat.isEmpty then some ([], [], []) else none
  | c :: cs =>
    if ciIsPrefix pat (c :: cs) then
      some ([], (c :: cs).take pat.length, (c :: cs).drop pat.length)
    else
      match splitOnceCI pat cs with
      | some (pre, m, post) => some (c :: pre, m, post)
      | none => none

/-- One global-replace pass of `new RegExp(openTag + "[^>]*>[\s\S]*?" + closeTag, "gi")`
with the empty string, as used for `<script...>...</script>` and
`<style...>...</style>` blocks: find `openTag` case-insensitively, consume
non-`>` characters up to a `>`, then lazily up to the first `closeTag`; on a
failed attempt the scan resumes after the `openTag` occurrence. `fuel` bounds
the recursion; one unit is spent per `openTag` occurrence, so the input length
is always enough. -/
def stripBlocksF (openTag closeTag : List Char) : Nat → List Char → List Char
  | 0, l => l
  | fuel + 1, l =>
    match splitOnceCI openTag l with
    | none => l
    | some (pre, m, rest) =>
      let attrs := rest.takeWhile (fun c => c ≠ '>')
      match rest.drop attrs.length with
      | '>' :: rest2 =>
        match splitOnceCI closeTag rest2 with
        | some (_, _, post) => pre ++ stripBlocksF openTag closeTag fuel post
        | none => pre ++ m ++ stripBlocksF openTag closeTag fuel rest
      | _ => pre ++ m ++ stripBlocksF openTag closeTag fuel rest

/-- `.replace(/<script[^>]*>[\s\S]*?<\/script>/gi, '')`. -/
def stripScripts (l : List Char) : List Char :=
  stripBlocksF "<script".data "</script>".data l.length l

/-- `.replace(/<style[^>]*>[\s\S]*?<\/style>/gi, '')`. -/
def stripStyles (l : List Char) : List Char :=
  stripBlocksF "<style".data "</style>".data l.length l

/-- `.replace(/<[^>]+>/g, ' ')` as a single left-to-right pass. The first
argument is the reversed run of characters accumulated since an unmatched `<`
(empty when not inside a candidate tag); on a `>` a nonempty candidate is
replaced by one space, while a bare `<>` (empty `[^>]+`) is kept verbatim, and
a candidate still open at the end of input is kept verbatim. -/
def stripTagsAux : List Char → List Char → List Char
  | buf, [] => buf.reverse
  | [], c :: rest =>
    if c = '<' then stripTagsAux [c] rest else c :: stripTagsAux [] rest
  | b :: bs, c :: rest =>
    if c = '>' then
      if b :: bs = ['<'] then '<' :: '>' :: stripTagsAux [] rest
      else ' ' :: stripTagsAux [] rest
    else stripTagsAux (c :: b :: bs) rest

/-- `.replace(/<[^>]+>/g, ' ')`. -/
def stripTags (l : List Char) : List Char :=
  stripTagsAux [] l

/-- ECMAScript whitespace (`\s`, also the set removed by
`String.prototype.trim`): WhiteSpace ∪ LineTerminator. -/
def isJsWs (c : Char) : Bool :=
  c = ' ' ∨ c = '\t' ∨ c = '\n' ∨ c = '\x0b' ∨ c = '\x0c' ∨ c = '\r' ∨
  c = '\u00a0' ∨ c = '\u1680' ∨ ('\u2000' ≤ c ∧ c ≤ '\u200a') ∨
  c = '\u2028' ∨ c = '\u2029' ∨ c = '\u202f' ∨ c = '\u205f' ∨
  c = '\u3000' ∨ c = '\ufeff'

/-- `.replace(/\s+/g, ' ')` as a single pass; the flag records whether the
previous character was whitespace (so each maximal whitespace run emits
exactly one space). -/
def collapseWsAux : Bool → List Char → List Char
  | _, [] => []
  | prevWs, c :: rest =>
    if isJsWs c then
      if prevWs then collapseWsAux true rest
      else ' ' :: collapseWsAux true rest
    else c :: collapseWsAux false rest

/-- `.replace(/\s+/g, ' ')`. -/
def collapseWs (l : List Char) : List Char :=
  collapseWsAux false l

/-- `String.prototype.trim`: drop leading and trailing JS whitespace. -/
def trimJs (l : List Char) : List Char :=
  ((l.dropWhile isJsWs).reverse.dropWhile isJsWs).reverse

/-- The full sanitization pipeline producing the `content` field: strip
script blocks, strip style blocks, strip remaining tags, collapse whitespace,
trim. -/
def sanitizeContent (l : List Char) : List Char :=
  trimJs (collapseWs (stripTags (stripStyles (stripScripts l))))

/-! ## Title extraction (`ssrf-safe-fetch.ts` lines 181–188)

`content.match(/<title[^>]*>([^<]+)<\/title>/i)`: the first match's capture
group 1. -/

/-- Search for the first position where the title regex matches and return
capture group 1; on a failed attempt at one `<title` occurrence the scan
resumes after it. One unit of fuel is spent per `<title` occurrence. -/
def findTitleF : Nat → List Char → Option (List Char)
  | 0, _ => none
  | fuel + 1, l =>
    match splitOnceCI "<title".data l with
    | none => none
    | some (_, _, rest) =>
      let attrs := rest.takeWhile (fun c => c ≠ '>')
      match rest.drop attrs.length with
      | '>' :: rest2 =>
        let grp := rest2.takeWhile (fun c => c ≠ '<')
        if grp ≠ [] ∧ ciIsPrefix "</title>".data (rest2.drop grp.length) then
          some grp
        else findTitleF fuel rest
      | _ => findTitleF fuel rest

/-- `content.match(/<title[^>]*>([^<]+)<\/title>/i)`, returning capture
group 1 of the first match. -/
def findTitle (l : List Char) : Option (List Char) :=
  findTitleF l.length l

/-! ## UTF-8 (modelling `new TextDecoder().decode` and the UTF-8 encoding
`crypto.createHash(...).update(string)` applies to its string argument) -/

/-- A UTF-8 continuation byte, `0x80`–`0xBF`. -/
def contByte (b : Nat) : Bool :=
  0x80 ≤ b ∧ b ≤ 0xBF

/-- The WHATWG UTF-8 decoder in its default non-fatal mode: malformed input
produces U+FFFD replacement characters, consuming the maximal valid prefix of
a sequence and resuming at the offending byte. Structural on `fuel`; every
step consumes at least one byte, so `fuel = input length` always suffices. -/
def utf8DecodeF : Nat → List Nat → List Char
  | 0, _ => []
  | _ + 1, [] => []
  | fuel + 1, b :: rest =>
    if b ≤ 0x7F then Char.ofNat b :: utf8DecodeF fuel rest
    else if 0xC2 ≤ b ∧ b ≤ 0xDF then
      match rest with
      | [] => ['�']
      | b1 :: rest2 =>
        if contByte b1 then
          Char.ofNat ((b - 0xC0) * 64 + (b1 - 0x80)) :: utf8DecodeF fuel rest2
        else '�' :: utf8DecodeF fuel rest
    else if 0xE0 ≤ b ∧ b ≤ 0xEF then
      let lo2 := if b = 0xE0 then 0xA0 else 0x80
      let hi2 := if b = 0xED then 0x9F else 0xBF
      match rest with
      | [] => ['�']
      | b1 :: rest2 =>
        if lo2 ≤ b1 ∧ b1 ≤ hi2 then
          match rest2 with
          | [] => ['�']
          | b2 :: rest3 =>
            if contByte b2 then
              Char.ofNat ((b - 0xE0) * 4096 + (b1 - 0x80) * 64 + (b2 - 0x80))
                :: utf8DecodeF fuel rest3
            else '�' :: utf8DecodeF fuel rest2
        else '�' :: utf8DecodeF fuel rest
    else if 0xF0 ≤ b ∧ b ≤ 0xF4 then
      let lo2 := if b = 0xF0 then 0x90 else 0x80
      let hi2 := if b = 0xF4 then 0x8F else 0xBF
      match rest with
      | [] => ['�']
      | b1 :: rest2 =>
        if lo2 ≤ b1 ∧ b1 ≤ hi2 then
          match rest2 with
          | [] => ['�']
          | b2 :: rest3 =>
            if contByte b2 then
              match rest3 with
              | [] => ['�']
              | b3 :: rest4 =>
                if contByte b3 then
                  Char.ofNat ((b - 0xF0) * 262144 + (b1 - 0x80) * 4096 +
                      (b2 - 0x80) * 64 + (b3 - 0x80))
                    :: utf8DecodeF fuel rest4
                else '�' :: utf8DecodeF fuel rest3
            else '�' :: utf8DecodeF fuel rest2
        else '�' :: utf8DecodeF fuel rest
    else '�' :: utf8DecodeF fuel rest

/-- `new TextDecoder().decode(bytes)`. -/
def utf8Decode (bytes : List Nat) : List Char :=
  utf8DecodeF bytes.length bytes

/-- UTF-8 encoding of one scalar value. -/
def utf8EncodeChar (c : Char) : List Nat :=
  let n := c.toNat
  if n ≤ 0x7F then [n]
  else if n ≤ 0x7FF then [0xC0 + n / 64, 0x80 + n % 64]
  else if n ≤ 0xFFFF then [0xE0 + n / 4096, 0x80 + (n / 64) % 64, 0x80 + n % 64]
  else [0xF0 + n / 262144, 0x80 + (n / 4096) % 64, 0x80 + (n / 64) % 64, 0x80 + n % 64]

/-- UTF-8 encoding of a string (what `hash.update` does to a JS string). -/
def utf8Encode (l : List Char) : List Nat :=
  (l.map utf8EncodeChar).flatten

/-! ## SHA-256 (modelling `crypto.createHash('sha256')`, FIPS 180-4),
32-bit words as `Nat` reduced mod `2^32`. -/

/-- Addition mod `2^32`. -/
def add32 (a b : Nat) : Nat :=
  (a + b) % 4294967296

/-- Right rotation of a 32-bit word. -/
def rotr32 (n x : Nat) : Nat :=
  (x / 2 ^ n + x % 2 ^ n * 2 ^ (32 - n)) % 4294967296

/-- Bitwise complement of a 32-bit word. -/
def not32 (x : Nat) : Nat :=
  0xFFFFFFFF ^^^ x

def shaCh (x y z : Nat) : Nat := (x &&& y) ^^^ (not32 x &&& z)

def shaMaj (x y z : Nat) : Nat := (x &&& y) ^^^ (x &&& z) ^^^ (y &&& z)

def bigSigma0 (x : Nat) : Nat := rotr32 2 x ^^^ rotr32 13 x ^^^ rotr32 22 x

def bigSigma1 (x : Nat) : Nat := rotr32 6 x ^^^ rotr32 11 x ^^^ rotr32 25 x

def smallSigma0 (x : Nat) : Nat := rotr32 7 x ^^^ rotr32 18 x ^^^ x / 2 ^ 3

def smallSigma1 (x : Nat) : Nat := rotr32 17 x ^^^ rotr32 19 x ^^^ x / 2 ^ 10

/-- The 64 SHA-256 round constants of FIPS 180-4 (decimal). -/
def shaK : List Nat :=
  [1116352408, 1899447441, 3049323471, 3921009573, 961987163, 1508970993,
   2453635748, 2870763221, 3624381080, 310598401, 607225278, 1426881987,
   1925078388, 2162078206, 2614888103, 3248222580, 3835390401, 4022224774,
   264347078, 604807628, 770255983, 1249150122, 1555081692, 1996064986,
   2554220882, 2821834349, 2952996808, 3210313671, 3336571891, 3584528711,
   113926993, 338241895, 666307205, 773529912, 1294757372, 1396182291,
   1695183700, 1986661051, 2177026350, 2456956037, 2730485921, 2820302411,
   3259730800, 3345764771, 3516065817, 3600352804, 4094571909, 275423344,
   430227734, 506948616, 659060556, 883997877, 958139571, 1322822218,
   1537002063, 1747873779, 1955562222, 2024104815, 2227730452, 2361852424,
   2428436474, 2756734187, 3204031479, 3329325298]

/-- The initial SHA-256 hash state of FIPS 180-4 (decimal). -/
def shaH0 : List Nat :=
  [1779033703, 3144134277, 1013904242, 2773480762,
   1359893119, 2600822924, 528734635, 1541459225]

/-- Big-endian bytes of a value, fixed width `n` bytes. -/
def natToBytesBE (n v : Nat) : List Nat :=
  (List.range n).map (fun i => v / 256 ^ (n - 1 - i) % 256)

/-- SHA-256 message padding: append `0x80`, zeros to 56 mod 64, then the
bit length as 8 big-endian bytes. -/
def shaPad (msg : List Nat) : List Nat :=
  let L := msg.length
  msg ++ 0x80 :: List.replicate ((120 - (L + 1) % 64) % 64) 0 ++ natToBytesBE 8 (L * 8)

/-- Split a byte list into 64-byte blocks. -/
def chunks64F : Nat → List Nat → List (List Nat)
  | 0, _ => []
  | _ + 1, [] => []
  | fuel + 1, l => l.take 64 :: chunks64F fuel (l.drop 64)

def chunks64 (l : List Nat) : List (List Nat) :=
  chunks64F l.length l

/-- Four big-endian bytes to a 32-bit word. -/
def bytesToWord (bs : List Nat) : Nat :=
  bs.foldl (fun acc b => acc * 256 + b) 0

/-- The 16 initial message-schedule words of one block. -/
def blockWords (block : List Nat) : List Nat :=
  (List.range 16).map (fun i => bytesToWord ((block.drop (4 * i)).take 4))

/-- Extend the message schedule by one word per fuel unit:
`W[t] = σ1(W[t-2]) + W[t-7] + σ0(W[t-15]) + W[t-16]`. -/
def scheduleF : Nat → List Nat → List Nat
  | 0, w => w
  | fuel + 1, w =>
    let t := w.length
    scheduleF fuel (w ++ [add32 (add32 (smallSigma1 (w.getD (t - 2) 0)) (w.getD (t - 7) 0))
      (add32 (smallSigma0 (w.getD (t - 15) 0)) (w.getD (t - 16) 0))])

/-- One SHA-256 compression round; the state is the word list `[a,…,h]`,
the pair is `(K[t], W[t])`. -/
def compressRound (st : List Nat) (kw : Nat × Nat) : List Nat :=
  match st with
  | [a, b, c, d, e, f, g, h] =>
    let t1 := add32 (add32 (add32 h (bigSigma1 e)) (add32 (shaCh e f g) kw.1)) kw.2
    let t2 := add32 (bigSigma0 a) (shaMaj a b c)
    [add32 t1 t2, a, b, c, add32 d t1, e, f, g]
  | other => other

/-- Process one 64-byte block into the running hash state. -/
def processBlock (H : List Nat) (block : List Nat) : List Nat :=
  let W := scheduleF 48 (blockWords block)
  let final := (shaK.zip W).foldl compressRound H
  List.zipWith add32 H final

/-- SHA-256 digest (32 bytes) of a byte message. -/
def sha256Bytes (msg : List Nat) : List Nat :=
  ((chunks64 (shaPad msg)).foldl processBlock shaH0).map (natToBytesBE 4) |>.flatten

/-- Lower-case hex digit. -/
def hexDigit (n : Nat) : Char :=
  if n < 10 then Char.ofNat (48 + n) else Char.ofNat (87 + n)

/-- Lower-case hex string of a byte list. -/
def bytesToHex (bs : List Nat) : List Char :=
  (bs.map (fun b => [hexDigit (b / 16), hexDigit (b % 16)])).flatten

/-- `crypto.createHash('sha256').update(s).digest('hex')`. -/
def sha256Hex (s : String) : String :=
  String.mk (bytesToHex (sha256Bytes (utf8Encode s.data)))

/-! ## The fetch result / error union (`ssrf-safe-fetch.ts` lines 36–49) -/

/-- `interface FetchResult`. -/
structure FetchResult where
  url : String
  title : String
  content : String
  contentHash : String
  fetchedAt : String
  statusCode : Nat
deriving Repr, DecidableEq

/-- `interface FetchError`; `details` is the optional field `details?`. -/
structure FetchError where
  url : String
  reason : String
  details : Option String
deriving Repr, DecidableEq

/-- The union `FetchResult | FetchError` returned by `safeFetch`. -/
inductive FetchOutcome where
  | success (r : FetchResult)
  | failure (e : FetchError)
deriving Repr, DecidableEq

/-- The property names present on a `FetchOutcome` value, as the JavaScript
`in` operator sees them: the declared fields of the respective interface, an
optional field being present only when set. -/
def fieldNames : FetchOutcome → List String
  | .success _ => ["url", "title", "content", "contentHash", "fetchedAt", "statusCode"]
  | .failure e => ["url", "reason"] ++ (match e.details with
      | some _ => ["details"]
      | none => [])

/-- `isFetchError(result)`: the type guard `'reason' in result`. -/
def isFetchError (result : FetchOutcome) : Bool :=
  "reason" ∈ fieldNames result

/-! ## The network model

`safeFetch` drives the platform `fetch` with an `AbortController` whose
`abort` is scheduled `FETCH_TIMEOUT_MS` after the request starts and is
cancelled (`clearTimeout`) as soon as the response resolves.  The transport
is modelled as data: either the request rejects with an error message, or it
resolves after `headerMs` milliseconds with a status line and an optional
chunked body, whose streaming then takes a further `streamMs` milliseconds.
If the timer fires while the request is still in flight (`headerMs`
exceeds the timeout) the promise rejects with Node's abort error, whose
message is `The operation was aborted`. -/

/-- An HTTP response as the transport would deliver it. -/
structure NetResponse where
  status : Nat
  statusText : String
  /-- `response.body`: `none` models a missing body stream; each chunk is the
  byte array one `reader.read()` yields. -/
  body : Option (List (List Nat))
deriving Repr, DecidableEq

/-- One run of the transport for one request. -/
inductive NetBehavior where
  /-- `fetch` rejects with an error with this message. -/
  | throws (message : String)
  /-- `fetch` resolves after `headerMs`; reading the whole body to its end
  would take a further `streamMs`. -/
  | resolves (headerMs streamMs : Nat) (resp : NetResponse)
deriving Repr, DecidableEq

/-- Total wall-clock time this transport run needs to deliver the complete
response (headers plus body). -/
def netTotalMs : NetBehavior → Nat
  | .throws _ => 0
  | .resolves headerMs streamMs _ => headerMs + streamMs

/-- Node's message on an `AbortController`-cancelled `fetch`. -/
def abortMessage : String := "The operation was aborted"

/-- Substring occurrence test on character lists. -/
def containsSub : List Char → List Char → Bool
  | s, sub =>
    match s with
    | [] => sub.isEmpty
    | _ :: rest => sub.isPrefixOf s ∨ containsSub rest sub

/-- `String.prototype.includes`. -/
def jsIncludes (s sub : String) : Bool :=
  containsSub s.data sub.data

/-! ## The fetcher (`safeFetch`, lines 107–242) -/

/-- The chunk-reading loop (lines 157–176): accumulate chunks, tracking the
cumulative byte count; the moment it exceeds `maxBytes`, cancel the reader
and give up (`none`).  On success, the consumed chunks in order. -/
def readLoop (maxBytes : Nat) : Nat → List (List Nat) → List (List Nat) → Option (List (List Nat))
  | _, acc, [] => some acc.reverse
  | total, acc, chunk :: rest =>
    let t := total + chunk.length
    if maxBytes < t then none
    else readLoop maxBytes t (chunk :: acc) rest

/-- `safeFetch(url)`.  `net` is the transport's behaviour for this request
and `now` the ISO timestamp `new Date().toISOString()` would produce. -/
def safeFetch (url : String) (config : Config) (net : NetBehavior) (now : String) :
    FetchOutcome :=
  let validation := validateUrl url config
  if validation.valid = false then
    .failure { url := url, reason := "SSRF Check Failed", details := validation.reason }
  else
    match net with
    | .throws msg =>
      if jsIncludes msg "aborted" then
        .failure { url := url, reason := "Timeout"
                   details := some ("Request exceeded " ++ toString config.FETCH_TIMEOUT_MS ++ "ms") }
      else
        .failure { url := url, reason := "Fetch Error", details := some msg }
    | .resolves headerMs _streamMs resp =>
      if config.FETCH_TIMEOUT_MS < headerMs then
        -- the abort timer fired first: `fetch` rejected with `abortMessage`,
        -- which contains "aborted", so the catch block reports a timeout
        .failure { url := url, reason := "Timeout"
                   details := some ("Request exceeded " ++ toString config.FETCH_TIMEOUT_MS ++ "ms") }
      else if ¬ (200 ≤ resp.status ∧ resp.status ≤ 299) then
        -- `response.ok` is exactly "status in the range 200–299"
        .failure { url := url, reason := "HTTP Error"
                   details := some ("Status: " ++ toString resp.status ++ " " ++ resp.statusText) }
      else
        match resp.body with
        | none => .failure { url := url, reason := "No response body", details := none }
        | some chunks =>
          match readLoop config.MAX_FETCH_BYTES 0 [] chunks with
          | none =>
            .failure { url := url, reason := "Content too large"
                       details := some ("Exceeded " ++ toString config.MAX_FETCH_BYTES ++ " bytes") }
          | some consumed =>
            let content := utf8Decode consumed.flatten
            let title := match findTitle content with
              | some grp => String.mk (trimJs grp)
              | none => ((parseUrl url).map (·.hostname)).getD ""
            let cleanContent := String.mk (sanitizeContent content)
            .success { url := url
                       title := title
                       content := cleanContent
                       contentHash := sha256Hex cleanContent
                       fetchedAt := now
                       statusCode := resp.status }

/-! ## Spec-side definitions and concrete scenario data -/

/-- The `content` field of an outcome, when it is a `FetchResult`. -/
def outcomeContent : FetchOutcome → Option String
  | .success r => some r.content
  | .failure _ => none

/-- The blocked IPv4 address ranges as the specification words them
(10/8, 172.16/12, 192.168/16, 127/8, 169.254/16, 0/8, 224/4, 240/4,
255.255.255.255), as a predicate on the four octet values.  This is the
spec's reading, to be compared against the source's string-prefix patterns. -/
def specBlockedIpv4Range (a b c d : Nat) : Prop :=
  a = 10 ∨ (a = 172 ∧ 16 ≤ b ∧ b ≤ 31) ∨ (a = 192 ∧ b = 168) ∨ a = 127 ∨
  (a = 169 ∧ b = 254) ∨ a = 0 ∨ (224 ≤ a ∧ a ≤ 239) ∨ (240 ≤ a ∧ a ≤ 255) ∨
  (a = 255 ∧ b = 255 ∧ c = 255 ∧ d = 255)

instance (a b c d : Nat) : Decidable (specBlockedIpv4Range a b c d) := by
  unfold specBlockedIpv4Range; infer_instance

/-- Decimal digits of an octet value (< 1000), for tying octet arithmetic to
the dotted hostname string. -/
def natToChars (n : Nat) : List Char :=
  if n < 10 then [Char.ofNat (48 + n)]
  else if n < 100 then [Char.ofNat (48 + n / 10), Char.ofNat (48 + n % 10)]
  else [Char.ofNat (48 + n / 100), Char.ofNat (48 + n / 10 % 10), Char.ofNat (48 + n % 10)]

/-- The dotted-quad hostname string of four octets. -/
def ipv4String (a b c d : Nat) : String :=
  String.mk (natToChars a ++ '.' :: natToChars b ++ '.' :: natToChars c ++ '.' :: natToChars d)

/-- The mock 200 HTML response body of the specification's Cat scenario. -/
def catBody : List Nat :=
  utf8Encode "<title>Cat</title><script>evil()</script><p>Cats are great</p>".data

/-- A transport run delivering the Cat scenario body with status 200. -/
def catNet : NetBehavior :=
  .resolves 50 10 { status := 200, statusText := "OK", body := some [catBody] }

/-- No two consecutive characters are both whitespace. -/
def wsNoDoubles (l : List Char) : Prop :=
  List.Chain' (fun a b => ¬ (isJsWs a = true ∧ isJsWs b = true)) l

/-! ## FIPS 180-4 test vectors pinning the SHA-256 model -/

theorem sha256Hex_empty :
    sha256Hex "" = "e3b0c44298fc1c149afbf4c8996fb92427ae41e4649b934ca495991b7852b855" := by
  decide

theorem sha256Hex_abc :
    sha256Hex "abc" = "ba7816bf8f01cfea414140de5dae2223b00361a396177a9cb410ff61f20015ad" := by
  decide

/-! ## Lemmas: whitespace normalization (`collapseWs`, `trimJs`) -/

theorem dropWhile_head?_false (p : Char → Bool) :
    ∀ (l : List Char) (c : Char), (l.dropWhile p).head? = some c → p c = false := by
  intro l
  induction l with
  | nil => intro c h; simp [List.dropWhile] at h
  | cons a rest ih =>
    intro c h
    rw [List.dropWhile_cons] at h
    split at h
    · exact ih c h
    · simp only [List.head?_cons, Option.some.injEq] at h
      subst h
      rename_i hne
      simpa using hne

theorem collapseWsAux_head_true :
    ∀ l c, (collapseWsAux true l).head? = some c → isJsWs c = false := by
  intro l
  induction l with
  | nil => intro c h; simp [collapseWsAux] at h
  | cons a rest ih =>
    intro c h
    simp only [collapseWsAux] at h
    split at h
    · exact ih c h
    · simp only [List.head?_cons, Option.some.injEq] at h
      subst h
      rename_i hne
      simpa using hne

theorem collapseWsAux_chain (l : List Char) : ∀ b, wsNoDoubles (collapseWsAux b l) := by
  induction l with
  | nil => intro b; simp [collapseWsAux, wsNoDoubles]
  | cons a rest ih =>
    intro b
    simp only [collapseWsAux]
    split
    · split
      · exact ih true
      · refine List.chain'_cons'.2 ⟨?_, ih true⟩
        intro y hy h2
        have := collapseWsAux_head_true rest y hy
        simp_all
    · refine List.chain'_cons'.2 ⟨?_, ih false⟩
      intro y hy h2
      simp_all

theorem collapseWsAux_ws_space :
    ∀ l b c, c ∈ collapseWsAux b l → isJsWs c = true → c = ' ' := by
  intro l
  induction l with
  | nil => intro b c hc; simp [collapseWsAux] at hc
  | cons a rest ih =>
    intro b c hc hws
    simp only [collapseWsAux] at hc
    split at hc
    · split at hc
      · exact ih true c hc hws
      · rcases List.mem_cons.1 hc with h | h
        · exact h
        · exact ih true c h hws
    · rcases List.mem_cons.1 hc with h | h
      · subst h; simp_all
      · exact ih false c h hws

theorem collapseWsAux_length_le (l : List Char) :
    ∀ b, (collapseWsAux b l).length ≤ l.length := by
  induction l with
  | nil => intro b; simp [collapseWsAux]
  | cons a rest ih =>
    intro b
    simp only [collapseWsAux]
    split
    · split
      · exact Nat.le_succ_of_le (ih true)
      · simpa using Nat.succ_le_succ (ih true)
    · simpa using Nat.succ_le_succ (ih false)

theorem trimJs_length_le (l : List Char) : (trimJs l).length ≤ l.length := by
  unfold trimJs
  calc ((l.dropWhile isJsWs).reverse.dropWhile isJsWs).reverse.length
      = ((l.dropWhile isJsWs).reverse.dropWhile isJsWs).length := List.length_reverse _
    _ ≤ (l.dropWhile isJsWs).reverse.length :=
        (List.dropWhile_suffix isJsWs).length_le
    _ = (l.dropWhile isJsWs).length := List.length_reverse _
    _ ≤ l.length := (List.dropWhile_suffix isJsWs).length_le

theorem trimJs_chain (l : List Char) (h : wsNoDoubles l) : wsNoDoubles (trimJs l) := by
  unfold trimJs
  have h1 : wsNoDoubles (l.dropWhile isJsWs) :=
    List.Chain'.suffix h (List.dropWhile_suffix isJsWs)
  have h2 : wsNoDoubles (l.dropWhile isJsWs).reverse := by
    unfold wsNoDoubles
    rw [List.chain'_reverse]
    exact h1.imp (fun _ _ hab h2 => hab ⟨h2.2, h2.1⟩)
  have h3 : wsNoDoubles ((l.dropWhile isJsWs).reverse.dropWhile isJsWs) :=
    List.Chain'.suffix h2 (List.dropWhile_suffix isJsWs)
  unfold wsNoDoubles
  rw [List.chain'_reverse]
  exact h3.imp (fun _ _ hab h2 => hab ⟨h2.2, h2.1⟩)

theorem trimJs_getLast? (l : List Char) :
    ∀ c, (trimJs l).getLast? = some c → isJsWs c = false := by
  intro c h
  unfold trimJs at h
  rw [← List.head?_reverse, List.reverse_reverse] at h
  exact dropWhile_head?_false isJsWs _ c h

theorem trimJs_head? (l : List Char) :
    ∀ c, (trimJs l).head? = some c → isJsWs c = false := by
  intro c h
  unfold trimJs at h
  rcases hs : (l.dropWhile isJsWs).reverse.dropWhile isJsWs with _ | ⟨x, xs⟩
  · rw [hs] at h; simp at h
  · -- the head of the reversed list is the last of the dropped list, which is
    -- the last of the list it was dropped from, i.e. the head of
    -- `l.dropWhile isJsWs`
    obtain ⟨t, ht⟩ : (l.dropWhile isJsWs).reverse.dropWhile isJsWs <:+
        (l.dropWhile isJsWs).reverse := List.dropWhile_suffix isJsWs
    have hne : (l.dropWhile isJsWs).reverse.dropWhile isJsWs ≠ [] := by rw [hs]; simp
    have h1 : ((l.dropWhile isJsWs).reverse.dropWhile isJsWs).reverse.head? =
        ((l.dropWhile isJsWs).reverse.dropWhile isJsWs).getLast? := List.head?_reverse _
    have h2 : ((l.dropWhile isJsWs).reverse).getLast? =
        ((l.dropWhile isJsWs).reverse.dropWhile isJsWs).getLast? := by
      conv_lhs => rw [← ht]
      exact List.getLast?_append_of_ne_nil t hne
    have h3 : ((l.dropWhile isJsWs).reverse).getLast? = (l.dropWhile isJsWs).head? := by
      rw [← List.head?_reverse, List.reverse_reverse]
    rw [h1, ← h2, h3] at h
    exact dropWhile_head?_false isJsWs l c h

theorem trimJs_mem (l : List Char) (c : Char) (h : c ∈ trimJs l) : c ∈ l := by
  unfold trimJs at h
  rw [List.mem_reverse] at h
  have h1 := (List.dropWhile_suffix isJsWs).subset h
  rw [List.mem_reverse] at h1
  exact (List.dropWhile_suffix isJsWs).subset h1

/-! ## Lemmas: length bounds for the sanitization pipeline -/

theorem splitOnceCI_eq (pat : List Char) :
    ∀ (l pre m post : List Char), splitOnceCI pat l = some (pre, m, post) →
      l = pre ++ m ++ post := by
  intro l
  induction l with
  | nil =>
    intro pre m post h
    simp only [splitOnceCI] at h
    split at h
    · simp only [Option.some.injEq, Prod.mk.injEq] at h
      obtain ⟨h1, h2, h3⟩ := h
      subst h1; subst h2; subst h3
      rfl
    · exact absurd h (by simp)
  | cons c cs ih =>
    intro pre m post h
    by_cases hp : ciIsPrefix pat (c :: cs) = true
    · simp only [splitOnceCI, hp, if_true, Option.some.injEq, Prod.mk.injEq] at h
      obtain ⟨h1, h2, h3⟩ := h
      subst h1; subst h2; subst h3
      simp [List.take_append_drop]
    · cases hrec : splitOnceCI pat cs with
      | none => simp [splitOnceCI, hp, hrec] at h
      | some triple =>
        obtain ⟨pre1, m1, post1⟩ := triple
        simp only [splitOnceCI, hp, if_false, hrec, Option.some.injEq, Prod.mk.injEq,
          Bool.false_eq_true] at h
        obtain ⟨h1, h2, h3⟩ := h
        subst h1; subst h2; subst h3
        have := ih pre1 m1 post1 hrec
        simp [this]

theorem stripBlocksF_length_le (openTag closeTag : List Char) :
    ∀ (fuel : Nat) (l : List Char),
      (stripBlocksF openTag closeTag fuel l).length ≤ l.length := by
  intro fuel
  induction fuel with
  | zero => intro l; simp [stripBlocksF]
  | succ fuel ih =>
    intro l
    simp only [stripBlocksF]
    split
    · exact le_refl _
    · rename_i pre m rest hsplit
      have hl : l = pre ++ m ++ rest := splitOnceCI_eq openTag l pre m rest hsplit
      have hlen : l.length = pre.length + m.length + rest.length := by
        rw [hl]; simp [List.length_append, Nat.add_assoc]
      split
      · rename_i rest2 hdrop
        have hdlen : rest.length - (rest.takeWhile (fun c => c ≠ '>')).length =
            rest2.length + 1 := by
          have := congrArg List.length hdrop
          simpa [List.length_drop] using this
        have htw : (rest.takeWhile (fun c => c ≠ '>')).length ≤ rest.length :=
          (List.takeWhile_prefix _).length_le
        split
        · rename_i a b post hsplit2
          have h2 : rest2 = a ++ b ++ post := splitOnceCI_eq closeTag rest2 a b post hsplit2
          have h2len : rest2.length = a.length + b.length + post.length := by
            rw [h2]; simp [List.length_append, Nat.add_assoc]
          have h3 := ih post
          simp only [List.length_append]
          omega
        · have h3 := ih rest
          simp only [List.length_append]
          omega
      · have h3 := ih rest
        simp only [List.length_append]
        omega

theorem stripTagsAux_length_le :
    ∀ (l buf : List Char), (stripTagsAux buf l).length ≤ buf.length + l.length := by
  intro l
  induction l with
  | nil => intro buf; simp [stripTagsAux]
  | cons c rest ih =>
    intro buf
    cases buf with
    | nil =>
      simp only [stripTagsAux]
      by_cases hc : c = '<'
      · subst hc
        rw [if_pos rfl]
        have := ih ['<']
        simp only [List.length_cons, List.length_nil] at this ⊢
        omega
      · rw [if_neg hc]
        have := ih []
        simp only [List.length_cons, List.length_nil] at this ⊢
        omega
    | cons b bs =>
      simp only [stripTagsAux]
      by_cases hc : c = '>'
      · subst hc
        rw [if_pos rfl]
        split
        · rename_i hbuf
          have hb : bs = [] := by
            simpa using congrArg List.length hbuf
          have := ih []
          subst hb
          simp only [List.length_cons, List.length_nil] at this ⊢
          omega
        · have := ih []
          simp only [List.length_cons, List.length_nil] at this ⊢
          omega
      · rw [if_neg hc]
        have := ih (c :: b :: bs)
        simp only [List.length_cons] at this ⊢
        omega

theorem utf8DecodeF_length_le :
    ∀ (fuel : Nat) (l : List Nat), (utf8DecodeF fuel l).length ≤ l.length := by
  intro fuel
  induction fuel with
  | zero => intro l; simp [utf8DecodeF]
  | succ fuel ih =>
    intro l
    cases l with
    | nil => simp [utf8DecodeF]
    | cons b rest =>
      simp only [utf8DecodeF]
      repeat' split
      all_goals simp only [List.length_cons, List.length_nil]
      all_goals
        first
        | omega
        | (exact Nat.succ_le_succ (ih _))
        | (exact Nat.succ_le_succ (Nat.le_succ_of_le (ih _)))
        | (exact Nat.succ_le_succ (Nat.le_succ_of_le (Nat.le_succ_of_le (ih _))))
        | (exact Nat.succ_le_succ (Nat.le_succ_of_le (Nat.le_succ_of_le
            (Nat.le_succ_of_le (ih _)))))

theorem sanitizeContent_length_le (l : List Char) :
    (sanitizeContent l).length ≤ l.length := by
  unfold sanitizeContent stripTags collapseWs stripScripts stripStyles
  calc (trimJs (collapseWsAux false (stripTagsAux []
          (stripBlocksF "<style".data "</style>".data
            (stripBlocksF "<script".data "</script>".data l.length l).length
            (stripBlocksF "<script".data "</script>".data l.length l))))).length
      ≤ (collapseWsAux false (stripTagsAux []
          (stripBlocksF "<style".data "</style>".data
            (stripBlocksF "<script".data "</script>".data l.length l).length
            (stripBlocksF "<script".data "</script>".data l.length l)))).length :=
        trimJs_length_le _
    _ ≤ (stripTagsAux []
          (stripBlocksF "<style".data "</style>".data
            (stripBlocksF "<script".data "</script>".data l.length l).length
            (stripBlocksF "<script".data "</script>".data l.length l))).length :=
        collapseWsAux_length_le _ _
    _ ≤ (stripBlocksF "<style".data "</style>".data
            (stripBlocksF "<script".data "</script>".data l.length l).length
            (stripBlocksF "<script".data "</script>".data l.length l)).length := by
        have := stripTagsAux_length_le (stripBlocksF "<style".data "</style>".data
            (stripBlocksF "<script".data "</script>".data l.length l).length
            (stripBlocksF "<script".data "</script>".data l.length l)) []
        simpa using this
    _ ≤ (stripBlocksF "<script".data "</script>".data l.length l).length :=
        stripBlocksF_length_le _ _ _ _
    _ ≤ l.length := stripBlocksF_length_le _ _ _ _

theorem sanitizeContent_shape (l : List Char) :
    (∀ c, (sanitizeContent l).head? = some c → isJsWs c = false) ∧
    (∀ c, (sanitizeContent l).getLast? = some c → isJsWs c = false) ∧
    wsNoDoubles (sanitizeContent l) ∧
    (∀ c ∈ sanitizeContent l, isJsWs c = true → c = ' ') := by
  unfold sanitizeContent collapseWs
  refine ⟨trimJs_head? _, trimJs_getLast? _, trimJs_chain _ (collapseWsAux_chain _ false), ?_⟩
  intro c hc hws
  exact collapseWsAux_ws_space _ false c (trimJs_mem _ c hc) hws

/-! ## Lemmas: the chunk-reading loop -/

theorem readLoop_complete (maxBytes : Nat) :
    ∀ (chunks : List (List Nat)) (total : Nat) (acc : List (List Nat)),
      total + (chunks.map List.length).sum ≤ maxBytes →
      readLoop maxBytes total acc chunks = some (acc.reverse ++ chunks) := by
  intro chunks
  induction chunks with
  | nil => intro total acc _; simp [readLoop]
  | cons c rest ih =>
    intro total acc h
    simp only [List.map_cons, List.sum_cons] at h
    simp only [readLoop]
    rw [if_neg (by omega)]
    rw [ih (total + c.length) (c :: acc) (by omega)]
    simp

theorem readLoop_over (maxBytes : Nat) :
    ∀ (chunks : List (List Nat)) (total : Nat) (acc : List (List Nat)),
      maxBytes < total + (chunks.map List.length).sum →
      total ≤ maxBytes →
      readLoop maxBytes total acc chunks = none := by
  intro chunks
  induction chunks with
  | nil =>
    intro total acc h1 h2
    simp at h1
    omega
  | cons c rest ih =>
    intro total acc h1 h2
    simp only [List.map_cons, List.sum_cons] at h1
    simp only [readLoop]
    by_cases hc : maxBytes < total + c.length
    · rw [if_pos hc]
    · rw [if_neg hc]
      exact ih (total + c.length) (c :: acc) (by omega) (by omega)

theorem readLoop_some_le (maxBytes : Nat) :
    ∀ (chunks : List (List Nat)) (total : Nat) (acc : List (List Nat)) (out : List (List Nat)),
      total = (acc.map List.length).sum →
      total ≤ maxBytes →
      readLoop maxBytes total acc chunks = some out →
      out.flatten.length ≤ maxBytes := by
  intro chunks
  induction chunks with
  | nil =>
    intro total acc out hacc hle h
    simp only [readLoop, Option.some.injEq] at h
    subst h
    rw [List.length_flatten, List.map_reverse, List.sum_reverse]
    omega
  | cons c rest ih =>
    intro total acc out hacc hle h
    simp only [readLoop] at h
    split at h
    · exact absurd h (by simp)
    · rename_i hc
      exact ih (total + c.length) (c :: acc) out (by simp [hacc]; omega) (by omega) h

/-! ## Lemmas: inverting a successful fetch -/

theorem safeFetch_success_inv (url : String) (cfg : Config) (net : NetBehavior) (now : String)
    (r : FetchResult) (h : safeFetch url cfg net now = .success r) :
    (validateUrl url cfg).valid = true ∧
    ∃ headerMs streamMs resp chunks consumed,
      net = NetBehavior.resolves headerMs streamMs resp ∧
      headerMs ≤ cfg.FETCH_TIMEOUT_MS ∧
      200 ≤ resp.status ∧ resp.status ≤ 299 ∧
      resp.body = some chunks ∧
      readLoop cfg.MAX_FETCH_BYTES 0 [] chunks = some consumed ∧
      r.content = String.mk (sanitizeContent (utf8Decode consumed.flatten)) ∧
      r.statusCode = resp.status ∧ r.url = url ∧ r.fetchedAt = now ∧
      r.contentHash = sha256Hex r.content := by
  simp only [safeFetch] at h
  split at h
  · exact absurd h (by simp)
  · rename_i hvalid
    have hv : (validateUrl url cfg).valid = true := by
      cases hvv : (validateUrl url cfg).valid
      · exact absurd hvv hvalid
      · rfl
    refine ⟨hv, ?_⟩
    split at h
    · split at h <;> exact absurd h (by simp)
    · rename_i headerMs streamMs resp
      split at h
      · exact absurd h (by simp)
      · split at h
        · exact absurd h (by simp)
        · rename_i htime hstatus
          split at h
          · exact absurd h (by simp)
          · rename_i chunks hbody
            split at h
            · exact absurd h (by simp)
            · rename_i consumed hread
              simp only [FetchOutcome.success.injEq] at h
              refine ⟨headerMs, streamMs, resp, chunks, consumed, rfl, by omega,
                ?_, ?_, hbody, hread, ?_, ?_, ?_, ?_, ?_⟩
              · rcases not_not.1 hstatus with ⟨h1, _⟩; exact h1
              · rcases not_not.1 hstatus with ⟨_, h2⟩; exact h2
              · rw [← h]
              · rw [← h]
              · rw [← h]
              · rw [← h]
              · rw [← h]

/-! ## The claims -/

/-- Claim C1: if the validator rejects a url, `safeFetch` returns a
`FetchError` with reason `SSRF Check Failed` and details equal to the
validator's rejection reason; the outcome is independent of the transport
(no network access); and a `FetchResult` is only produced for a url that
passed validation. -/
theorem claim_c1 :
    (∀ (url : String) (cfg : Config) (net : NetBehavior) (now : String),
      (validateUrl url cfg).valid = false →
      safeFetch url cfg net now =
        .failure { url := url, reason := "SSRF Check Failed",
                   details := (validateUrl url cfg).reason }) ∧
    (∀ (url : String) (cfg : Config) (net net' : NetBehavior) (now now' : String),
      (validateUrl url cfg).valid = false →
      safeFetch url cfg net now = safeFetch url cfg net' now') ∧
    (∀ (url : String) (cfg : Config) (net : NetBehavior) (now : String) (r : FetchResult),
      safeFetch url cfg net now = .success r → (validateUrl url cfg).valid = true) := by
  refine ⟨?_, ?_, ?_⟩
  · intro url cfg net now h
    simp [safeFetch, h]
  · intro url cfg net net' now now' h
    simp [safeFetch, h]
  · intro url cfg net now r h
    exact (safeFetch_success_inv url cfg net now r h).1

/-- Witness for C1 at `http://localhost/admin`, whose hostname is blocked:
the outcome is the SSRF failure and is the same for two different
transports. -/
theorem claim_c1_witness :
    (validateUrl "http://localhost/admin" defaultConfig).valid = false ∧
    safeFetch "http://localhost/admin" defaultConfig (.throws "ECONNREFUSED") "t" =
      .failure { url := "http://localhost/admin", reason := "SSRF Check Failed",
                 details := some "Hostname \"localhost\" is blocked" } ∧
    safeFetch "http://localhost/admin" defaultConfig (.throws "ECONNREFUSED") "t" =
      safeFetch "http://localhost/admin" defaultConfig catNet "u" :=
  ⟨by decide,
   claim_c1.1 "http://localhost/admin" defaultConfig (.throws "ECONNREFUSED") "t" (by decide),
   claim_c1.2.1 "http://localhost/admin" defaultConfig (.throws "ECONNREFUSED") catNet
     "t" "u" (by decide)⟩

/-- Claim C5: any parsed http/https url whose lower-cased hostname is on the
exact-match blocklist is rejected with the blocked-hostname reason, for every
allowlist configuration. -/
theorem claim_c5 (u : ParsedUrl) (cfg : Config)
    (hp : u.protocol = "http:" ∨ u.protocol = "https:")
    (hb : String.mk (jsToLower u.hostname.data) ∈ BLOCKED_HOSTNAMES) :
    validateUrlParsed u cfg =
      { valid := false,
        reason := some ("Hostname \"" ++ String.mk (jsToLower u.hostname.data)
          ++ "\" is blocked") } := by
  simp only [validateUrlParsed]
  rw [if_neg (not_not_intro hp), if_pos hb]

/-- Witness for C5: `localhost` over http is rejected even when the allowlist
contains `localhost` itself. -/
theorem claim_c5_witness :
    ((("http:" : String) = "http:" ∨ ("http:" : String) = "https:") ∧
      String.mk (jsToLower ("localhost" : String).data) ∈ BLOCKED_HOSTNAMES) ∧
    validateUrlParsed { protocol := "http:", hostname := "localhost" }
        { ALLOWED_DOMAINS := ["localhost"], FETCH_TIMEOUT_MS := 10000,
          MAX_FETCH_BYTES := 1048576 } =
      { valid := false, reason := some "Hostname \"localhost\" is blocked" } :=
  ⟨⟨Or.inl rfl, by decide⟩,
   claim_c5 { protocol := "http:", hostname := "localhost" }
     { ALLOWED_DOMAINS := ["localhost"], FETCH_TIMEOUT_MS := 10000,
       MAX_FETCH_BYTES := 1048576 } (Or.inl rfl) (by decide)⟩

/-- Claim C9: `isFetchError` discriminates the union soundly and completely:
true on every `FetchError` (whose interface always has a `reason` property)
and false on every `FetchResult` (whose interface has none). -/
theorem claim_c9 :
    (∀ e : FetchError, isFetchError (.failure e) = true) ∧
    (∀ r : FetchResult, isFetchError (.success r) = false) := by
  constructor
  · intro e
    cases hd : e.details <;> simp [isFetchError, fieldNames, hd]
  · intro r
    simp [isFetchError, fieldNames]

/-- Claim C3: the per-pattern allowlist match accepts a hostname exactly when
(a) the pattern starts with `.` and the hostname ends with that suffix, or
(b) the hostname equals the pattern, or (c) the hostname ends with `.` plus
the pattern; with the spec's concrete examples checked through the full
validator. -/
theorem claim_c3 :
    (∀ domain hostname : List Char,
      domainMatches domain hostname = true ↔
        ((startsWithL domain ".".data = true ∧ endsWithL hostname domain = true) ∨
         hostname = domain ∨ endsWithL hostname ('.' :: domain) = true)) ∧
    validateUrl "https://en.wikipedia.org/"
      { ALLOWED_DOMAINS := ["wikipedia.org"], FETCH_TIMEOUT_MS := 10000,
        MAX_FETCH_BYTES := 1048576 } = { valid := true, reason := none } ∧
    validateUrl "https://wikipedia.org/"
      { ALLOWED_DOMAINS := ["wikipedia.org"], FETCH_TIMEOUT_MS := 10000,
        MAX_FETCH_BYTES := 1048576 } = { valid := true, reason := none } ∧
    (validateUrl "https://notwikipedia.org/"
      { ALLOWED_DOMAINS := ["wikipedia.org"], FETCH_TIMEOUT_MS := 10000,
        MAX_FETCH_BYTES := 1048576 }).valid = false ∧
    (validateUrl "https://wikipedia.org.evil.com/"
      { ALLOWED_DOMAINS := ["wikipedia.org"], FETCH_TIMEOUT_MS := 10000,
        MAX_FETCH_BYTES := 1048576 }).valid = false ∧
    (validateUrl "https://mit.edu/"
      { ALLOWED_DOMAINS := [".edu"], FETCH_TIMEOUT_MS := 10000,
        MAX_FETCH_BYTES := 1048576 }).valid = true ∧
    (validateUrl "https://mit.edu.evil.com/"
      { ALLOWED_DOMAINS := [".edu"], FETCH_TIMEOUT_MS := 10000,
        MAX_FETCH_BYTES := 1048576 }).valid = false := by
  refine ⟨?_, by decide, by decide, by decide, by decide, by decide, by decide⟩
  intro domain hostname
  unfold domainMatches
  by_cases hd : startsWithL domain ".".data = true
  · rw [if_pos hd]
    constructor
    · intro he
      exact Or.inl ⟨hd, he⟩
    · rintro (⟨_, he⟩ | he | he)
      · exact he
      · subst he
        unfold endsWithL
        rw [List.isSuffixOf_iff_suffix]
      · unfold endsWithL at he ⊢
        rw [List.isSuffixOf_iff_suffix] at he ⊢
        exact (List.suffix_cons '.' domain).trans he
  · rw [if_neg hd]
    simp [hd]

/-- Claim C10: the `content` of every returned `FetchResult` is
whitespace-normalized — no leading or trailing whitespace, no two consecutive
whitespace characters, and every remaining whitespace character is a single
space. -/
theorem claim_c10 (url : String) (cfg : Config) (net : NetBehavior) (now : String)
    (r : FetchResult) (h : safeFetch url cfg net now = .success r) :
    (∀ c, r.content.data.head? = some c → isJsWs c = false) ∧
    (∀ c, r.content.data.getLast? = some c → isJsWs c = false) ∧
    wsNoDoubles r.content.data ∧
    (∀ c ∈ r.content.data, isJsWs c = true → c = ' ') := by
  obtain ⟨-, _, _, _, _, consumed, -, -, -, -, -, -, hcontent, -⟩ :=
    safeFetch_success_inv url cfg net now r h
  rw [hcontent]
  exact sanitizeContent_shape (utf8Decode consumed.flatten)

/-- Witness for C10 on a concrete fetched page whose raw body has tags and
doubled spaces. -/
theorem claim_c10_witness :
    (∀ c, ("Cat Cats are great" : String).data.head? = some c → isJsWs c = false) ∧
    (∀ c, ("Cat Cats are great" : String).data.getLast? = some c → isJsWs c = false) ∧
    wsNoDoubles ("Cat Cats are great" : String).data ∧
    (∀ c ∈ ("Cat Cats are great" : String).data, isJsWs c = true → c = ' ') :=
  claim_c10 "https://en.wikipedia.org/wiki/Cat" defaultConfig catNet "t"
    { url := "https://en.wikipedia.org/wiki/Cat", title := "Cat",
      content := "Cat Cats are great", contentHash := sha256Hex "Cat Cats are great",
      fetchedAt := "t", statusCode := 200 } (by decide)

/-- Claim C6: for a validated url and a 2xx in-time response, a body of
cumulative size exactly `MAX_FETCH_BYTES` yields a `FetchResult`, a body over
the cap yields the `Content too large` error (for every continuation of the
stream), and the `content` of every returned `FetchResult` never exceeds
`MAX_FETCH_BYTES` in length. -/
theorem claim_c6 :
    (∀ (url : String) (cfg : Config) (headerMs streamMs status : Nat) (statusText : String)
        (chunks : List (List Nat)) (now : String),
      (validateUrl url cfg).valid = true →
      headerMs ≤ cfg.FETCH_TIMEOUT_MS →
      200 ≤ status → status ≤ 299 →
      (chunks.map List.length).sum = cfg.MAX_FETCH_BYTES →
      ∃ r, safeFetch url cfg
        (.resolves headerMs streamMs ⟨status, statusText, some chunks⟩) now
        = .success r) ∧
    (∀ (url : String) (cfg : Config) (headerMs streamMs status : Nat) (statusText : String)
        (chunks : List (List Nat)) (now : String),
      (validateUrl url cfg).valid = true →
      headerMs ≤ cfg.FETCH_TIMEOUT_MS →
      200 ≤ status → status ≤ 299 →
      cfg.MAX_FETCH_BYTES < (chunks.map List.length).sum →
      safeFetch url cfg
        (.resolves headerMs streamMs ⟨status, statusText, some chunks⟩) now =
        .failure { url := url, reason := "Content too large",
                   details := some ("Exceeded " ++ toString cfg.MAX_FETCH_BYTES
                     ++ " bytes") }) ∧
    (∀ (url : String) (cfg : Config) (net : NetBehavior) (now : String) (r : FetchResult),
      safeFetch url cfg net now = .success r →
      r.content.length ≤ cfg.MAX_FETCH_BYTES) := by
  refine ⟨?_, ?_, ?_⟩
  · intro url cfg headerMs streamMs status statusText chunks now hvalid htime h200 h299 hsum
    simp only [safeFetch, hvalid]
    rw [if_neg (by simp)]
    rw [if_neg (by omega)]
    rw [if_neg (not_not_intro ⟨h200, h299⟩)]
    rw [readLoop_complete cfg.MAX_FETCH_BYTES chunks 0 [] (by omega)]
    exact ⟨_, rfl⟩
  · intro url cfg headerMs streamMs status statusText chunks now hvalid htime h200 h299 hsum
    simp only [safeFetch, hvalid]
    rw [if_neg (by simp)]
    rw [if_neg (by omega)]
    rw [if_neg (not_not_intro ⟨h200, h299⟩)]
    rw [readLoop_over cfg.MAX_FETCH_BYTES chunks 0 [] (by omega) (by omega)]
  · intro url cfg net now r h
    obtain ⟨-, _, _, _, chunks, consumed, -, -, -, -, -, hread, hcontent, -⟩ :=
      safeFetch_success_inv url cfg net now r h
    have h1 : consumed.flatten.length ≤ cfg.MAX_FETCH_BYTES :=
      readLoop_some_le cfg.MAX_FETCH_BYTES chunks 0 [] consumed (by simp)
        (Nat.zero_le _) hread
    have h2 : (utf8Decode consumed.flatten).length ≤ consumed.flatten.length :=
      utf8DecodeF_length_le _ _
    have h3 : (sanitizeContent (utf8Decode consumed.flatten)).length ≤
        (utf8Decode consumed.flatten).length :=
      sanitizeContent_length_le _
    have h4 : r.content.length = (sanitizeContent (utf8Decode consumed.flatten)).length := by
      rw [hcontent]
      rfl
    omega

/-- Witness for C6 with a 3-byte cap: the 3-byte body `[97], [98, 99]`
succeeds with content `abc` of length 3; the 4-byte body `[97], [98, 99, 100]`
fails with `Content too large`. -/
theorem claim_c6_witness :
    ((validateUrl "https://wikipedia.org/"
        { ALLOWED_DOMAINS := ["wikipedia.org"], FETCH_TIMEOUT_MS := 10000,
          MAX_FETCH_BYTES := 3 }).valid = true ∧
      (([[97], [98, 99]] : List (List Nat)).map List.length).sum = 3 ∧
      (([[97], [98, 99, 100]] : List (List Nat)).map List.length).sum = 4) ∧
    (∃ r, safeFetch "https://wikipedia.org/"
        { ALLOWED_DOMAINS := ["wikipedia.org"], FETCH_TIMEOUT_MS := 10000,
          MAX_FETCH_BYTES := 3 }
        (.resolves 5 0 ⟨200, "OK", some [[97], [98, 99]]⟩)
        "t" = .success r) ∧
    safeFetch "https://wikipedia.org/"
        { ALLOWED_DOMAINS := ["wikipedia.org"], FETCH_TIMEOUT_MS := 10000,
          MAX_FETCH_BYTES := 3 }
        (.resolves 5 0 ⟨200, "OK", some [[97], [98, 99, 100]]⟩) "t" =
      .failure { url := "https://wikipedia.org/", reason := "Content too large",
                 details := some "Exceeded 3 bytes" } ∧
    ("abc" : String).length ≤ 3 :=
  ⟨⟨by decide, by decide, by decide⟩,
   claim_c6.1 "https://wikipedia.org/"
     { ALLOWED_DOMAINS := ["wikipedia.org"], FETCH_TIMEOUT_MS := 10000, MAX_FETCH_BYTES := 3 }
     5 0 200 "OK" [[97], [98, 99]] "t" (by decide) (by decide) (by decide) (by decide)
     (by decide),
   claim_c6.2.1 "https://wikipedia.org/"
     { ALLOWED_DOMAINS := ["wikipedia.org"], FETCH_TIMEOUT_MS := 10000, MAX_FETCH_BYTES := 3 }
     5 0 200 "OK" [[97], [98, 99, 100]] "t" (by decide) (by decide) (by decide) (by decide)
     (by decide),
   claim_c6.2.2 "https://wikipedia.org/"
     { ALLOWED_DOMAINS := ["wikipedia.org"], FETCH_TIMEOUT_MS := 10000, MAX_FETCH_BYTES := 3 }
     (.resolves 5 0 ⟨200, "OK", some [[97], [98, 99]]⟩) "t"
     { url := "https://wikipedia.org/", title := "wikipedia.org", content := "abc",
       contentHash := sha256Hex "abc", fetchedAt := "t", statusCode := 200 } (by decide)⟩

/-- Counterexample to C2 as stated: on the scenario body the sanitized
content is `Cat Cats are great` — the `<title>` element's text survives
tag-stripping — not `Cats are great`. -/
theorem claim_c2_counterexample :
    outcomeContent (safeFetch "https://en.wikipedia.org/wiki/Cat" defaultConfig catNet
        "2024-01-01T00:00:00.000Z") = some "Cat Cats are great" ∧
    ("Cat Cats are great" : String) ≠ "Cats are great" := by
  constructor
  · decide
  · decide

/-- Claim C2 (amended): the Cat scenario fetch returns a `FetchResult` with
title `Cat`, content `Cat Cats are great`, statusCode 200 and contentHash the
hex SHA-256 of `Cat Cats are great`; the sanitization strips script blocks,
then style blocks, then all remaining tags (each replaced by a space),
collapses whitespace runs and trims. -/
theorem claim_c2 :
    safeFetch "https://en.wikipedia.org/wiki/Cat" defaultConfig catNet
        "2024-01-01T00:00:00.000Z" =
      .success { url := "https://en.wikipedia.org/wiki/Cat", title := "Cat",
                 content := "Cat Cats are great",
                 contentHash := sha256Hex "Cat Cats are great",
                 fetchedAt := "2024-01-01T00:00:00.000Z", statusCode := 200 } ∧
    sanitizeContent
        "<title>Cat</title><script>evil()</script><p>Cats are great</p>".data =
      "Cat Cats are great".data ∧
    trimJs (collapseWs (stripTags (stripStyles (stripScripts
        "<title>Cat</title><script>evil()</script><p>Cats are great</p>".data)))) =
      sanitizeContent
        "<title>Cat</title><script>evil()</script><p>Cats are great</p>".data := by
  refine ⟨by decide, by decide, rfl⟩

/-- Counterexample to C4 as stated: `225.0.0.1` lies in the multicast range
224.0.0.0/4, yet the validator does not return the blocked-IP-range reason —
with the address allowlisted the url is accepted outright, and under the
default config the rejection is the allowlist reason, not the blocked-range
one (the source's `^224\.` pattern covers only the literal prefix `224.`). -/
theorem claim_c4_counterexample :
    specBlockedIpv4Range 225 0 0 1 ∧
    ipv4String 225 0 0 1 = "225.0.0.1" ∧
    isIpv4Literal "225.0.0.1".data = true ∧
    validateUrl "http://225.0.0.1/"
        { ALLOWED_DOMAINS := ["225.0.0.1"], FETCH_TIMEOUT_MS := 10000,
          MAX_FETCH_BYTES := 1048576 } = { valid := true, reason := none } ∧
    validateUrl "http://225.0.0.1/" defaultConfig =
      { valid := false,
        reason := some ("Domain \"225.0.0.1\" is not in the allowed list. "
          ++ "Allowed: wikipedia.org, github.com, .edu, .gov") } := by
  refine ⟨by decide, by decide, by decide, by decide, by decide⟩

/-- Claim C4 (amended): the IP block is by the source's literal string
patterns — prefixes `127.`, `10.`, `172.16.`–`172.31.`, `192.168.`,
`169.254.`, `0.`, `224.`, `240.`, `255.255.255.255`, exact `::1`, prefixes
`fe80:`, `fc00:`, `fd00:` — not by membership in the CIDR ranges; any
IP-shaped http/https hostname matching a pattern is rejected with the
blocked-range reason regardless of the allowlist, and in particular
`fetch("http://127.0.0.1:8080/admin")` fails the SSRF check with details
exactly `IP address "127.0.0.1" is in a blocked range`. -/
theorem claim_c4 :
    (∀ (u : ParsedUrl) (cfg : Config),
      (u.protocol = "http:" ∨ u.protocol = "https:") →
      String.mk (jsToLower u.hostname.data) ∉ BLOCKED_HOSTNAMES →
      (isIpv4Literal (jsToLower u.hostname.data) = true ∨
        isIpv6ish (jsToLower u.hostname.data) = true) →
      blockedPatternsMatch (jsToLower u.hostname.data) = true →
      validateUrlParsed u cfg =
        { valid := false,
          reason := some ("IP address \"" ++ String.mk (jsToLower u.hostname.data)
            ++ "\" is in a blocked range") }) ∧
    safeFetch "http://127.0.0.1:8080/admin" defaultConfig catNet "t" =
      .failure { url := "http://127.0.0.1:8080/admin", reason := "SSRF Check Failed",
                 details := some "IP address \"127.0.0.1\" is in a blocked range" } := by
  constructor
  · intro u cfg hp hb hip hpat
    simp only [validateUrlParsed]
    rw [if_neg (not_not_intro hp), if_neg hb, if_pos ⟨hip, hpat⟩]
  · decide

/-- Witness for C4 at the parsed form of `http://127.0.0.1:8080/admin`. -/
theorem claim_c4_witness :
    ((("http:" : String) = "http:" ∨ ("http:" : String) = "https:") ∧
      String.mk (jsToLower ("127.0.0.1" : String).data) ∉ BLOCKED_HOSTNAMES ∧
      isIpv4Literal (jsToLower ("127.0.0.1" : String).data) = true ∧
      blockedPatternsMatch (jsToLower ("127.0.0.1" : String).data) = true) ∧
    validateUrlParsed { protocol := "http:", hostname := "127.0.0.1" } defaultConfig =
      { valid := false, reason := some "IP address \"127.0.0.1\" is in a blocked range" } :=
  ⟨⟨Or.inl rfl, by decide, by decide, by decide⟩,
   claim_c4.1 { protocol := "http:", hostname := "127.0.0.1" } defaultConfig
     (Or.inl rfl) (by decide) (Or.inl (by decide)) (by decide)⟩

/-- Counterexample to C7 as stated: a transport that delivers the headers
immediately but takes far longer than `FETCH_TIMEOUT_MS` to stream the body
still completes with a `FetchResult` — the abort timer is cleared as soon as
the response resolves, so body-streaming reads are not time-bounded. -/
theorem claim_c7_counterexample :
    defaultConfig.FETCH_TIMEOUT_MS <
      netTotalMs (.resolves 0 999999999 ⟨200, "OK", some [[104, 105]]⟩) ∧
    safeFetch "https://en.wikipedia.org/wiki/Cat" defaultConfig
        (.resolves 0 999999999 ⟨200, "OK", some [[104, 105]]⟩) "t" =
      .success { url := "https://en.wikipedia.org/wiki/Cat", title := "en.wikipedia.org",
                 content := "hi", contentHash := sha256Hex "hi",
                 fetchedAt := "t", statusCode := 200 } := by
  refine ⟨by decide, by decide⟩

/-- Claim C7 (amended): the timeout bounds only the phase up to resolution of
the response (headers): if `fetch` has not resolved when `FETCH_TIMEOUT_MS`
elapses, the abort fires and `safeFetch` returns the `Timeout` error; the
same `Timeout` error is returned whenever the transport rejects with an
abort-flavoured message.  Body streaming after resolution is not under the
timer. -/
theorem claim_c7 :
    (∀ (url : String) (cfg : Config) (headerMs streamMs : Nat) (resp : NetResponse)
        (now : String),
      (validateUrl url cfg).valid = true →
      cfg.FETCH_TIMEOUT_MS < headerMs →
      safeFetch url cfg (.resolves headerMs streamMs resp) now =
        .failure { url := url, reason := "Timeout",
                   details := some ("Request exceeded " ++ toString cfg.FETCH_TIMEOUT_MS
                     ++ "ms") }) ∧
    (∀ (url : String) (cfg : Config) (msg now : String),
      (validateUrl url cfg).valid = true →
      jsIncludes msg "aborted" = true →
      safeFetch url cfg (.throws msg) now =
        .failure { url := url, reason := "Timeout",
                   details := some ("Request exceeded " ++ toString cfg.FETCH_TIMEOUT_MS
                     ++ "ms") }) := by
  constructor
  · intro url cfg headerMs streamMs resp now hvalid htime
    simp only [safeFetch, hvalid]
    rw [if_neg (by simp), if_pos htime]
  · intro url cfg msg now hvalid hmsg
    simp only [safeFetch, hvalid]
    rw [if_neg (by simp), if_pos hmsg]

/-- Witness for C7: a 20-second headers delay under the default 10-second
timeout yields the `Timeout` error, as does an abort-message rejection. -/
theorem claim_c7_witness :
    ((validateUrl "https://en.wikipedia.org/wiki/Cat" defaultConfig).valid = true ∧
      defaultConfig.FETCH_TIMEOUT_MS < 20000 ∧
      jsIncludes abortMessage "aborted" = true) ∧
    safeFetch "https://en.wikipedia.org/wiki/Cat" defaultConfig
        (.resolves 20000 0 ⟨200, "OK", some [[104]]⟩) "t" =
      .failure { url := "https://en.wikipedia.org/wiki/Cat", reason := "Timeout",
                 details := some "Request exceeded 10000ms" } ∧
    safeFetch "https://en.wikipedia.org/wiki/Cat" defaultConfig (.throws abortMessage) "t" =
      .failure { url := "https://en.wikipedia.org/wiki/Cat", reason := "Timeout",
                 details := some "Request exceeded 10000ms" } :=
  ⟨⟨by decide, by decide, by decide⟩,
   claim_c7.1 "https://en.wikipedia.org/wiki/Cat" defaultConfig 20000 0
     ⟨200, "OK", some [[104]]⟩ "t" (by decide) (by decide),
   claim_c7.2 "https://en.wikipedia.org/wiki/Cat" defaultConfig abortMessage "t"
     (by decide) (by decide)⟩

/-- Counterexample to C8 as stated: on a 404 the details string is
`Status: 404 Not Found`, i.e. prefixed with `Status: `, not the bare
`404 Not Found` the claim requires. -/
theorem claim_c8_counterexample :
    safeFetch "https://en.wikipedia.org/wiki/Cat" defaultConfig
        (.resolves 0 0 ⟨404, "Not Found", some [[104]]⟩) "t" =
      .failure { url := "https://en.wikipedia.org/wiki/Cat", reason := "HTTP Error",
                 details := some "Status: 404 Not Found" } ∧
    ("Status: 404 Not Found" : String) ≠ "404 Not Found" := by
  refine ⟨by decide, by decide⟩

/-- Claim C8 (amended): for a validated url, a non-2xx in-time response
yields the `HTTP Error` outcome with details `Status: <status> <statusText>`
(the literal prefix `Status: `, then the numeric status, a space, and the
status text); the single-request transport model performs no retry. -/
theorem claim_c8 :
    ∀ (url : String) (cfg : Config) (headerMs streamMs status : Nat) (statusText : String)
      (body : Option (List (List Nat))) (now : String),
      (validateUrl url cfg).valid = true →
      headerMs ≤ cfg.FETCH_TIMEOUT_MS →
      ¬ (200 ≤ status ∧ status ≤ 299) →
      safeFetch url cfg (.resolves headerMs streamMs ⟨status, statusText, body⟩) now =
        .failure { url := url, reason := "HTTP Error",
                   details := some ("Status: " ++ toString status ++ " " ++ statusText) } := by
  intro url cfg headerMs streamMs status statusText body now hvalid htime hstatus
  simp only [safeFetch, hvalid]
  rw [if_neg (by simp), if_neg (by omega), if_pos hstatus]

/-- Witness for C8 at a 404 under the default config. -/
theorem claim_c8_witness :
    ((validateUrl "https://en.wikipedia.org/wiki/Cat" defaultConfig).valid = true ∧
      ¬ (200 ≤ 404 ∧ 404 ≤ 299)) ∧
    safeFetch "https://en.wikipedia.org/wiki/Cat" defaultConfig
        (.resolves 0 0 ⟨404, "Not Found", some [[104]]⟩) "t" =
      .failure { url := "https://en.wikipedia.org/wiki/Cat", reason := "HTTP Error",
                 details := some "Status: 404 Not Found" } :=
  ⟨⟨by decide, by decide⟩,
   claim_c8 "https://en.wikipedia.org/wiki/Cat" defaultConfig 0 0 404 "Not Found"
     (some [[104]]) "t" (by decide) (by decide) (by decide)⟩

end Bodigi
